import Mathlib

/-!
Shallow embedding of `bevy_simple_scroll_view` (src/lib.rs): the data model
(`ScrollView`, `ScrollableContent`) and the three input systems
(`input_mouse_pressed_move`, `input_touch_pressed_move`, `scroll_events`),
with every `f32` scalar modelled as a rational number.  The ECS queries are
modelled explicitly: a region's `Children` list is a `List (Option ContentItem)`
where `none` stands for a child on which `content_q.get_mut` misses, and the
per-event candidate collection (the `pressed_scrolls` / `hovered_scrolls`
vectors, iterated in reverse) is modelled by processing the region list in
reverse order, leaving non-candidate regions untouched.
-/

namespace Scroll

attribute [local semireducible] Rat.add Rat.sub Rat.mul Rat.inv

/-- Interaction state supplied per region by the input backend (bevy's `Interaction`). -/
inductive Interaction where
  | None
  | Hovered
  | Pressed
deriving DecidableEq

/-- `ScrollView` component: configuration of one scroll region (src/lib.rs lines 40-48).
It has exactly two fields: `scroll_speed` and `propagate`. -/
structure ScrollView where
  scroll_speed : ℚ
  propagate : Bool
deriving DecidableEq

/-- `ScrollableContent` component: the scroll offset of a content node
(src/lib.rs lines 61-65).  Its only field is `pos_y`. -/
structure ScrollableContent where
  pos_y : ℚ
deriving DecidableEq

/-- A content child as produced by `content_q.get_mut(child)`: the mutable
`ScrollableContent` together with the `Node`'s size on the y axis. -/
structure ContentItem where
  content : ScrollableContent
  size_y : ℚ
deriving DecidableEq

/-- One scroll-view entity as seen by the three input systems: its `Children`
(a `none` entry is a child whose `ScrollableContent` lookup misses), its
`Interaction` state, its `ScrollView` configuration and its `Node` height. -/
structure Region where
  children : List (Option ContentItem)
  interaction : Interaction
  view : ScrollView
  node_size_y : ℚ
deriving DecidableEq

/-- Rust's `f32::clamp(self, min, max)`: `min` if below, `max` if above, else unchanged. -/
def rustClamp (x lo hi : ℚ) : ℚ :=
  if x < lo then lo else if hi < x then hi else x

/-- Rust's `f32::max(self, other)`: the greater of the two. -/
def rustMax (a b : ℚ) : ℚ :=
  if a < b then b else a

/-- First disjunct of the code's `will_clamp`: `new_pos < -max_scroll`. -/
def hit_lower (pos max_scroll delta : ℚ) : Bool :=
  decide (pos + delta < -max_scroll)

/-- Second disjunct of the code's `will_clamp`: `new_pos > 0.`. -/
def hit_upper (pos max_scroll delta : ℚ) : Bool :=
  decide (0 < pos + delta)

/-- Body of the content-child loop of `input_mouse_pressed_move`
(src/lib.rs lines 104-119): compute `max_scroll`, test `will_clamp` on the
proposed position, add the delta, clamp into `[-max_scroll, 0]`, and report
whether this child sets `scroll_applied` (`!will_clamp && max_scroll > 0.0`). -/
def mouse_child_apply (container_height : ℚ) (item : ContentItem) (dy : ℚ) :
    ContentItem × Bool :=
  let max_scroll := rustMax (item.size_y - container_height) 0
  let will_clamp :=
    hit_lower item.content.pos_y max_scroll dy || hit_upper item.content.pos_y max_scroll dy
  let pos := rustClamp (item.content.pos_y + dy) (-max_scroll) 0
  (⟨⟨pos⟩, item.size_y⟩, !will_clamp && decide (0 < max_scroll))

/-- The `for &child in children.iter()` loop of `input_mouse_pressed_move`
(src/lib.rs lines 103-120): children whose content lookup misses (`none`) are
skipped, the rest are updated and their `scroll_applied` flags are or-ed. -/
def mouse_children_loop (container_height dy : ℚ) :
    List (Option ContentItem) → List (Option ContentItem) × Bool
  | [] => ([], false)
  | none :: cs =>
      let r := mouse_children_loop container_height dy cs
      (none :: r.1, r.2)
  | some item :: cs =>
      let a := mouse_child_apply container_height item dy
      let r := mouse_children_loop container_height dy cs
      (some a.1 :: r.1, a.2 || r.2)

/-- One candidate region of `input_mouse_pressed_move` (src/lib.rs lines
100-125): run the child loop, then consume iff `scroll_applied && !propagate`. -/
def mouse_region_step (dy : ℚ) (r : Region) : Region × Bool :=
  let res := mouse_children_loop r.node_size_y dy r.children
  ({ r with children := res.1 }, res.2 && !r.view.propagate)

/-- The candidate loop of `input_mouse_pressed_move` (src/lib.rs lines 87-126)
on an innermost-first (already reversed) region list: pressed regions are
evaluated unless `consumed` is already set, others pass through untouched. -/
def mouse_pass_rev (dy : ℚ) : List Region → Bool → List Region × Bool
  | [], consumed => ([], consumed)
  | r :: rs, consumed =>
      if r.interaction = Interaction.Pressed then
        if consumed then
          let rest := mouse_pass_rev dy rs consumed
          (r :: rest.1, rest.2)
        else
          let s := mouse_region_step dy r
          let rest := mouse_pass_rev dy rs s.2
          (s.1 :: rest.1, rest.2)
      else
        let rest := mouse_pass_rev dy rs consumed
        (r :: rest.1, rest.2)

/-- The `input_mouse_pressed_move` system (src/lib.rs lines 80-128) for one
`MouseMotion` event with vertical delta `dy`, acting on the region list in
natural enumeration order (ancestors before descendants). -/
def input_mouse_pressed_move (dy : ℚ) (regions : List Region) : List Region :=
  ((mouse_pass_rev dy regions.reverse false).1).reverse

/-- Body of the content-child loop of `input_touch_pressed_move`
(src/lib.rs lines 158-173); the delta is `touch.delta().y`. -/
def touch_child_apply (container_height : ℚ) (item : ContentItem) (dy : ℚ) :
    ContentItem × Bool :=
  let max_scroll := rustMax (item.size_y - container_height) 0
  let will_clamp :=
    hit_lower item.content.pos_y max_scroll dy || hit_upper item.content.pos_y max_scroll dy
  let pos := rustClamp (item.content.pos_y + dy) (-max_scroll) 0
  (⟨⟨pos⟩, item.size_y⟩, !will_clamp && decide (0 < max_scroll))

/-- The `for &child in children.iter()` loop of `input_touch_pressed_move`
(src/lib.rs lines 157-174). -/
def touch_children_loop (container_height dy : ℚ) :
    List (Option ContentItem) → List (Option ContentItem) × Bool
  | [] => ([], false)
  | none :: cs =>
      let r := touch_children_loop container_height dy cs
      (none :: r.1, r.2)
  | some item :: cs =>
      let a := touch_child_apply container_height item dy
      let r := touch_children_loop container_height dy cs
      (some a.1 :: r.1, a.2 || r.2)

/-- One candidate region of `input_touch_pressed_move` (src/lib.rs lines 154-179). -/
def touch_region_step (dy : ℚ) (r : Region) : Region × Bool :=
  let res := touch_children_loop r.node_size_y dy r.children
  ({ r with children := res.1 }, res.2 && !r.view.propagate)

/-- The candidate loop of `input_touch_pressed_move` (src/lib.rs lines 141-180)
on an innermost-first (already reversed) region list. -/
def touch_pass_rev (dy : ℚ) : List Region → Bool → List Region × Bool
  | [], consumed => ([], consumed)
  | r :: rs, consumed =>
      if r.interaction = Interaction.Pressed then
        if consumed then
          let rest := touch_pass_rev dy rs consumed
          (r :: rest.1, rest.2)
        else
          let s := touch_region_step dy r
          let rest := touch_pass_rev dy rs s.2
          (s.1 :: rest.1, rest.2)
      else
        let rest := touch_pass_rev dy rs consumed
        (r :: rest.1, rest.2)

/-- The `input_touch_pressed_move` system (src/lib.rs lines 130-182) for one
pressed touch with vertical delta `dy`. -/
def input_touch_pressed_move (dy : ℚ) (regions : List Region) : List Region :=
  ((touch_pass_rev dy regions.reverse false).1).reverse

/-- bevy's `MouseScrollUnit`. -/
inductive MouseScrollUnit where
  | Line
  | Pixel
deriving DecidableEq

/-- bevy's `MouseWheel` event restricted to the fields the code reads. -/
structure MouseWheel where
  unit : MouseScrollUnit
  y : ℚ
deriving DecidableEq

/-- The per-region `y` of `scroll_events` (src/lib.rs lines 208-213): for
`Line` units the raw wheel delta times `time.delta().as_secs_f32()` times
`scroll_speed`; for `Pixel` units the raw wheel delta. -/
def wheel_region_y (dt : ℚ) (sv : ScrollView) (ev : MouseWheel) : ℚ :=
  match ev.unit with
  | MouseScrollUnit.Line => ev.y * dt * sv.scroll_speed
  | MouseScrollUnit.Pixel => ev.y

/-- Body of the content-child loop of `scroll_events` (src/lib.rs lines
219-234): the region-level `y` is multiplied once more by
`time.delta().as_secs_f32() * scroll_view.scroll_speed`, then applied and
clamped exactly as in the drag systems. -/
def wheel_child_apply (dt speed y container_height : ℚ) (item : ContentItem) :
    ContentItem × Bool :=
  let yy := y * dt * speed
  let max_scroll := rustMax (item.size_y - container_height) 0
  let will_clamp :=
    hit_lower item.content.pos_y max_scroll yy || hit_upper item.content.pos_y max_scroll yy
  let pos := rustClamp (item.content.pos_y + yy) (-max_scroll) 0
  (⟨⟨pos⟩, item.size_y⟩, !will_clamp && decide (0 < max_scroll))

/-- The `for &child in children.iter()` loop of `scroll_events`
(src/lib.rs lines 218-236). -/
def wheel_children_loop (dt speed y container_height : ℚ) :
    List (Option ContentItem) → List (Option ContentItem) × Bool
  | [] => ([], false)
  | none :: cs =>
      let r := wheel_children_loop dt speed y container_height cs
      (none :: r.1, r.2)
  | some item :: cs =>
      let a := wheel_child_apply dt speed y container_height item
      let r := wheel_children_loop dt speed y container_height cs
      (some a.1 :: r.1, a.2 || r.2)

/-- One candidate region of `scroll_events` (src/lib.rs lines 208-241):
derive the unit-dependent `y`, run the child loop, consume iff
`scroll_applied && !propagate`. -/
def wheel_region_step (dt : ℚ) (ev : MouseWheel) (r : Region) : Region × Bool :=
  let y := wheel_region_y dt r.view ev
  let res := wheel_children_loop dt r.view.scroll_speed y r.node_size_y r.children
  ({ r with children := res.1 }, res.2 && !r.view.propagate)

/-- The candidate loop of `scroll_events` (src/lib.rs lines 193-242) on an
innermost-first (already reversed) region list; candidates are the `Hovered`
regions. -/
def wheel_pass_rev (dt : ℚ) (ev : MouseWheel) : List Region → Bool → List Region × Bool
  | [], consumed => ([], consumed)
  | r :: rs, consumed =>
      if r.interaction = Interaction.Hovered then
        if consumed then
          let rest := wheel_pass_rev dt ev rs consumed
          (r :: rest.1, rest.2)
        else
          let s := wheel_region_step dt ev r
          let rest := wheel_pass_rev dt ev rs s.2
          (s.1 :: rest.1, rest.2)
      else
        let rest := wheel_pass_rev dt ev rs consumed
        (r :: rest.1, rest.2)

/-- The `scroll_events` system (src/lib.rs lines 184-244) for one `MouseWheel`
event, with `dt = time.delta().as_secs_f32()`. -/
def scroll_events (dt : ℚ) (ev : MouseWheel) (regions : List Region) : List Region :=
  ((wheel_pass_rev dt ev regions.reverse false).1).reverse

/-- The spec's three outcomes of one delta application (§4.1 step 6). -/
inductive Outcome where
  | Applied
  | AtBoundary
  | Inapplicable
deriving DecidableEq

/-- The spec's outcome classification (§4.1 steps 2-6), phrased over the
code's quantities: `Inapplicable` when `max_scroll = 0`, `AtBoundary` when a
bound is hit (`will_clamp`), `Applied` otherwise. -/
def classify (container_height : ℚ) (item : ContentItem) (delta : ℚ) : Outcome :=
  let max_scroll := rustMax (item.size_y - container_height) 0
  if max_scroll = 0 then Outcome.Inapplicable
  else if hit_lower item.content.pos_y max_scroll delta
          || hit_upper item.content.pos_y max_scroll delta then Outcome.AtBoundary
  else Outcome.Applied

/-- Modelled from the spec: the two-axis scroll offset of §3 (`offsetX`,
`offsetY`), which the code's `ScrollableContent` does not have (it only has
`pos_y`). -/
structure SpecScrollOffset where
  pos_x : ℚ
  pos_y : ℚ
deriving DecidableEq

/-- Modelled from the spec: the Offset Engine of §4.1 with the `horizontal`
axis selector of §3/§4.2 — the scroll amount is applied and clamped on the
x axis when `horizontal` and on the y axis otherwise, the other axis being
left untouched. -/
def spec_offset_apply (horizontal : Bool) (amount viewport_x viewport_y size_x size_y : ℚ)
    (off : SpecScrollOffset) : SpecScrollOffset :=
  if horizontal then
    ⟨rustClamp (off.pos_x + amount) (-(rustMax 0 (size_x - viewport_x))) 0, off.pos_y⟩
  else
    ⟨off.pos_x, rustClamp (off.pos_y + amount) (-(rustMax 0 (size_y - viewport_y))) 0⟩

/-- The code's wheel delta application lifted to the spec's two-axis offset:
the code has no x offset, so `pos_x` is carried through unchanged and `pos_y`
is updated by `wheel_child_apply`. -/
def code_wheel_offset_apply (dt speed y container_height size_y : ℚ)
    (off : SpecScrollOffset) : SpecScrollOffset :=
  ⟨off.pos_x,
   ((wheel_child_apply dt speed y container_height ⟨⟨off.pos_y⟩, size_y⟩).1).content.pos_y⟩

theorem rustMax_nonneg (a : ℚ) : 0 ≤ rustMax a 0 := by
  unfold rustMax
  split_ifs with h
  · exact le_refl 0
  · exact le_of_not_lt h

theorem rustMax_zero_comm (a : ℚ) : rustMax 0 a = rustMax a 0 := by
  unfold rustMax
  split_ifs with h1 h2 <;> linarith

theorem rustMax_eq_zero (a : ℚ) (h : a ≤ 0) : rustMax a 0 = 0 := by
  unfold rustMax
  rcases lt_or_eq_of_le h with h' | h'
  · rw [if_pos h']
  · rw [h', if_neg (lt_irrefl 0)]

theorem le_rustClamp (x lo hi : ℚ) (h : lo ≤ hi) : lo ≤ rustClamp x lo hi := by
  unfold rustClamp
  split_ifs with h1 h2
  · exact le_refl lo
  · exact h
  · exact le_of_not_lt h1

theorem rustClamp_le (x lo hi : ℚ) (h : lo ≤ hi) : rustClamp x lo hi ≤ hi := by
  unfold rustClamp
  split_ifs with h1 h2
  · exact h
  · exact le_refl hi
  · exact le_of_not_lt h2

theorem rustClamp_eq_self (x lo hi : ℚ) (h1 : lo ≤ x) (h2 : x ≤ hi) :
    rustClamp x lo hi = x := by
  unfold rustClamp
  rw [if_neg (not_lt.mpr h1), if_neg (not_lt.mpr h2)]

theorem mouse_child_apply_snd (container_height : ℚ) (item : ContentItem) (dy : ℚ) :
    (mouse_child_apply container_height item dy).2
      = decide (classify container_height item dy = Outcome.Applied) := by
  unfold mouse_child_apply classify
  by_cases h0 : rustMax (item.size_y - container_height) 0 = 0
  · simp [h0]
  · have hpos : 0 < rustMax (item.size_y - container_height) 0 :=
      lt_of_le_of_ne (rustMax_nonneg _) (Ne.symm h0)
    cases hb : (hit_lower item.content.pos_y (rustMax (item.size_y - container_height) 0) dy
        || hit_upper item.content.pos_y (rustMax (item.size_y - container_height) 0) dy) <;>
      simp [h0, hb, hpos]

theorem touch_child_apply_snd (container_height : ℚ) (item : ContentItem) (dy : ℚ) :
    (touch_child_apply container_height item dy).2
      = decide (classify container_height item dy = Outcome.Applied) := by
  unfold touch_child_apply classify
  by_cases h0 : rustMax (item.size_y - container_height) 0 = 0
  · simp [h0]
  · have hpos : 0 < rustMax (item.size_y - container_height) 0 :=
      lt_of_le_of_ne (rustMax_nonneg _) (Ne.symm h0)
    cases hb : (hit_lower item.content.pos_y (rustMax (item.size_y - container_height) 0) dy
        || hit_upper item.content.pos_y (rustMax (item.size_y - container_height) 0) dy) <;>
      simp [h0, hb, hpos]

theorem wheel_child_apply_snd (dt speed y container_height : ℚ) (item : ContentItem) :
    (wheel_child_apply dt speed y container_height item).2
      = decide (classify container_height item (y * dt * speed) = Outcome.Applied) := by
  unfold wheel_child_apply classify
  by_cases h0 : rustMax (item.size_y - container_height) 0 = 0
  · simp [h0]
  · have hpos : 0 < rustMax (item.size_y - container_height) 0 :=
      lt_of_le_of_ne (rustMax_nonneg _) (Ne.symm h0)
    cases hb : (hit_lower item.content.pos_y (rustMax (item.size_y - container_height) 0)
          (y * dt * speed)
        || hit_upper item.content.pos_y (rustMax (item.size_y - container_height) 0)
          (y * dt * speed)) <;>
      simp [h0, hb, hpos]

theorem mouse_children_loop_snd (container_height dy : ℚ) (cs : List (Option ContentItem)) :
    (mouse_children_loop container_height dy cs).2
      = cs.any fun oc => oc.any fun item =>
          decide (classify container_height item dy = Outcome.Applied) := by
  induction cs with
  | nil => rfl
  | cons c cs ih =>
      cases c with
      | none => simp [mouse_children_loop, ih]
      | some item => simp [mouse_children_loop, ih, mouse_child_apply_snd]

theorem touch_children_loop_snd (container_height dy : ℚ) (cs : List (Option ContentItem)) :
    (touch_children_loop container_height dy cs).2
      = cs.any fun oc => oc.any fun item =>
          decide (classify container_height item dy = Outcome.Applied) := by
  induction cs with
  | nil => rfl
  | cons c cs ih =>
      cases c with
      | none => simp [touch_children_loop, ih]
      | some item => simp [touch_children_loop, ih, touch_child_apply_snd]

theorem wheel_children_loop_snd (dt speed y container_height : ℚ)
    (cs : List (Option ContentItem)) :
    (wheel_children_loop dt speed y container_height cs).2
      = cs.any fun oc => oc.any fun item =>
          decide (classify container_height item (y * dt * speed) = Outcome.Applied) := by
  induction cs with
  | nil => rfl
  | cons c cs ih =>
      cases c with
      | none => simp [wheel_children_loop, ih]
      | some item => simp [wheel_children_loop, ih, wheel_child_apply_snd]

/-- C1 (amended): a region consumes the event iff its `propagate` flag is false
and the delta application on at least one content child produced outcome
`Applied`; an `AtBoundary` outcome, like `Inapplicable`, never causes
consumption.  Stated for the wheel system and the pointer-drag system. -/
theorem C1_consume_iff_child_applied (dt dy : ℚ) (ev : MouseWheel) (r : Region) :
    ((wheel_region_step dt ev r).2
      = (!r.view.propagate && r.children.any fun oc => oc.any fun item =>
          decide (classify r.node_size_y item
            (wheel_region_y dt r.view ev * dt * r.view.scroll_speed) = Outcome.Applied)))
  ∧ ((mouse_region_step dy r).2
      = (!r.view.propagate && r.children.any fun oc => oc.any fun item =>
          decide (classify r.node_size_y item dy = Outcome.Applied))) := by
  constructor
  · simp only [wheel_region_step, wheel_children_loop_snd]
    exact Bool.and_comm _ _
  · simp only [mouse_region_step, mouse_children_loop_snd]
    exact Bool.and_comm _ _

/-- C1 counterexample: a hovered, non-propagating region with overflow
(`max_scroll = 100`) whose single child hits the upper boundary (outcome
`AtBoundary`) does not consume the wheel event, although the claim's formula
`!propagate && (outcome = Applied or outcome = AtBoundary)` evaluates to true. -/
theorem C1_counterexample :
    (wheel_region_step 1 ⟨MouseScrollUnit.Pixel, 5⟩
        ⟨[some ⟨⟨0⟩, 200⟩], Interaction.Hovered, ⟨1, false⟩, 100⟩).2 = false
  ∧ ((!(⟨[some ⟨⟨0⟩, 200⟩], Interaction.Hovered, ⟨1, false⟩, 100⟩ : Region).view.propagate)
      && [some (⟨⟨0⟩, 200⟩ : ContentItem)].any fun oc => oc.any fun item =>
          decide (classify 100 item (5 * 1 * 1) = Outcome.Applied
                  ∨ classify 100 item (5 * 1 * 1) = Outcome.AtBoundary)) = true := by
  decide

/-- C3: for all content sizes, viewport sizes and applied deltas, the
resulting offset lies in the interval `[-(max 0 (C - V)), 0]` — stated for the
pointer-drag delta application and for the wheel delta application. -/
theorem C3_clamping_invariant (container_height dy dt speed y : ℚ) (item : ContentItem) :
    (-(rustMax 0 (item.size_y - container_height))
        ≤ ((mouse_child_apply container_height item dy).1).content.pos_y
      ∧ ((mouse_child_apply container_height item dy).1).content.pos_y ≤ 0)
  ∧ (-(rustMax 0 (item.size_y - container_height))
        ≤ ((wheel_child_apply dt speed y container_height item).1).content.pos_y
      ∧ ((wheel_child_apply dt speed y container_height item).1).content.pos_y ≤ 0) := by
  have hlo : -(rustMax (item.size_y - container_height) 0) ≤ 0 :=
    neg_nonpos_of_nonneg (rustMax_nonneg _)
  rw [rustMax_zero_comm]
  unfold mouse_child_apply wheel_child_apply
  exact ⟨⟨le_rustClamp _ _ _ hlo, rustClamp_le _ _ _ hlo⟩,
         ⟨le_rustClamp _ _ _ hlo, rustClamp_le _ _ _ hlo⟩⟩

/-- C5: for a `Line`-unit wheel event the delta applied to a region's content
is `rawY * dt * scrollSpeed`, multiplied once more by `dt * scrollSpeed`
(i.e. `rawY * (dt * scrollSpeed)^2`); for a `Pixel`-unit event the applied
delta is `rawY * dt * scrollSpeed`. -/
theorem C5_wheel_delta_formula (dt container_height yraw : ℚ) (sv : ScrollView)
    (item : ContentItem) :
    ((wheel_child_apply dt sv.scroll_speed
        (wheel_region_y dt sv ⟨MouseScrollUnit.Line, yraw⟩) container_height item).1).content.pos_y
      = rustClamp (item.content.pos_y + yraw * (dt * sv.scroll_speed) ^ 2)
          (-(rustMax (item.size_y - container_height) 0)) 0
  ∧ ((wheel_child_apply dt sv.scroll_speed
        (wheel_region_y dt sv ⟨MouseScrollUnit.Pixel, yraw⟩) container_height item).1).content.pos_y
      = rustClamp (item.content.pos_y + yraw * (dt * sv.scroll_speed))
          (-(rustMax (item.size_y - container_height) 0)) 0 := by
  unfold wheel_child_apply wheel_region_y
  constructor
  · have h : yraw * dt * sv.scroll_speed * dt * sv.scroll_speed
        = yraw * (dt * sv.scroll_speed) ^ 2 := by ring
    rw [h]
  · have h : yraw * dt * sv.scroll_speed = yraw * (dt * sv.scroll_speed) := by ring
    rw [h]

/-- C7: a zero delta applied to an offset already satisfying the clamping
invariant leaves the offset unchanged (wheel path with raw `y = 0`, and drag
path with `dy = 0`), and at a non-boundary position with `max_scroll > 0` it
reports no boundary hit: both `will_clamp` disjuncts are false. -/
theorem C7_zero_delta_noop (container_height dt speed : ℚ) (item : ContentItem)
    (h_lo : -(rustMax (item.size_y - container_height) 0) ≤ item.content.pos_y)
    (h_hi : item.content.pos_y ≤ 0) :
    (((wheel_child_apply dt speed 0 container_height item).1).content.pos_y
        = item.content.pos_y
      ∧ ((mouse_child_apply container_height item 0).1).content.pos_y
        = item.content.pos_y)
  ∧ (-(rustMax (item.size_y - container_height) 0) < item.content.pos_y →
      item.content.pos_y < 0 →
      0 < rustMax (item.size_y - container_height) 0 →
      hit_upper item.content.pos_y (rustMax (item.size_y - container_height) 0) 0 = false
      ∧ hit_lower item.content.pos_y (rustMax (item.size_y - container_height) 0) 0 = false) := by
  have hx : item.content.pos_y + 0 = item.content.pos_y := add_zero _
  constructor
  · constructor
    · unfold wheel_child_apply
      simp only [zero_mul, hx]
      exact rustClamp_eq_self _ _ _ h_lo h_hi
    · unfold mouse_child_apply
      simp only [hx]
      exact rustClamp_eq_self _ _ _ h_lo h_hi
  · intro _ h2 _
    constructor
    · unfold hit_upper
      rw [hx]
      exact decide_eq_false (not_lt.mpr (le_of_lt h2))
    · unfold hit_lower
      rw [hx]
      exact decide_eq_false (not_lt.mpr h_lo)

/-- C8: the delta a drag event applies to a content offset is the raw drag
delta exactly — whenever the proposed position is in range, the new offset is
the old offset plus the raw delta, with no speed multiplier and no frame-time
scaling, identically for the pointer-drag and touch-drag handlers. -/
theorem C8_drag_delta_unscaled (container_height dy : ℚ) (item : ContentItem)
    (h_lo : -(rustMax (item.size_y - container_height) 0) ≤ item.content.pos_y + dy)
    (h_hi : item.content.pos_y + dy ≤ 0) :
    ((mouse_child_apply container_height item dy).1).content.pos_y
      = item.content.pos_y + dy
  ∧ ((touch_child_apply container_height item dy).1).content.pos_y
      = item.content.pos_y + dy := by
  unfold mouse_child_apply touch_child_apply
  exact ⟨rustClamp_eq_self _ _ _ h_lo h_hi, rustClamp_eq_self _ _ _ h_lo h_hi⟩

theorem classify_of_fit (container_height delta : ℚ) (item : ContentItem)
    (h : item.size_y ≤ container_height) :
    classify container_height item delta = Outcome.Inapplicable := by
  unfold classify
  rw [if_pos (rustMax_eq_zero _ (by linarith))]

/-- C6: a region all of whose content children fit in its viewport
(`C ≤ V`, hence `max_scroll = 0`) never consumes an event, whatever its
`propagate` flag; the next candidate is then processed under `consumed = false`,
exactly as if the region had not consumed anything. -/
theorem C6_no_overflow_never_consumes (dt dy : ℚ) (ev : MouseWheel) (r : Region)
    (rs : List Region)
    (h_fit : ∀ item : ContentItem, some item ∈ r.children → item.size_y ≤ r.node_size_y) :
    (wheel_region_step dt ev r).2 = false
  ∧ (mouse_region_step dy r).2 = false
  ∧ (r.interaction = Interaction.Hovered →
      wheel_pass_rev dt ev (r :: rs) false
        = ((wheel_region_step dt ev r).1 :: (wheel_pass_rev dt ev rs false).1,
           (wheel_pass_rev dt ev rs false).2))
  ∧ (r.interaction = Interaction.Pressed →
      mouse_pass_rev dy (r :: rs) false
        = ((mouse_region_step dy r).1 :: (mouse_pass_rev dy rs false).1,
           (mouse_pass_rev dy rs false).2)) := by
  have h_any : ∀ delta : ℚ,
      (r.children.any fun oc => oc.any fun item =>
        decide (classify r.node_size_y item delta = Outcome.Applied)) = false := by
    intro delta
    rw [List.any_eq_false]
    intro oc hoc
    cases oc with
    | none => simp
    | some item =>
        simp only [Option.any_some]
        rw [classify_of_fit _ _ _ (h_fit item hoc)]
        simp
  have h_wheel : (wheel_region_step dt ev r).2 = false := by
    simp only [wheel_region_step, wheel_children_loop_snd, h_any, Bool.false_and]
  have h_mouse : (mouse_region_step dy r).2 = false := by
    simp only [mouse_region_step, mouse_children_loop_snd, h_any, Bool.false_and]
  refine ⟨h_wheel, h_mouse, ?_, ?_⟩
  · intro h_int
    rw [wheel_pass_rev, if_pos h_int]
    simp only [Bool.false_eq_true, if_false, h_wheel]
  · intro h_int
    rw [mouse_pass_rev, if_pos h_int]
    simp only [Bool.false_eq_true, if_false, h_mouse]

theorem mouse_children_loop_append (container_height dy : ℚ)
    (cs1 cs2 : List (Option ContentItem)) :
    mouse_children_loop container_height dy (cs1 ++ cs2)
      = ((mouse_children_loop container_height dy cs1).1
           ++ (mouse_children_loop container_height dy cs2).1,
         (mouse_children_loop container_height dy cs1).2
           || (mouse_children_loop container_height dy cs2).2) := by
  induction cs1 with
  | nil => simp [mouse_children_loop]
  | cons c cs ih =>
      cases c <;> simp [mouse_children_loop, ih, Bool.or_assoc]

theorem wheel_children_loop_append (dt speed y container_height : ℚ)
    (cs1 cs2 : List (Option ContentItem)) :
    wheel_children_loop dt speed y container_height (cs1 ++ cs2)
      = ((wheel_children_loop dt speed y container_height cs1).1
           ++ (wheel_children_loop dt speed y container_height cs2).1,
         (wheel_children_loop dt speed y container_height cs1).2
           || (wheel_children_loop dt speed y container_height cs2).2) := by
  induction cs1 with
  | nil => simp [wheel_children_loop]
  | cons c cs ih =>
      cases c <;> simp [wheel_children_loop, ih, Bool.or_assoc]

/-- C9: a child on which the content lookup misses (`none`) is silently
skipped: it is left untouched in place, the other children and the region's
`scroll_applied` outcome are computed exactly as if the child were absent, and
no failure occurs.  Stated for the pointer-drag child loop and the wheel child
loop. -/
theorem C9_lookup_miss_skipped (container_height dy dt speed y : ℚ)
    (cs1 cs2 : List (Option ContentItem)) :
    (mouse_children_loop container_height dy (cs1 ++ none :: cs2)
      = ((mouse_children_loop container_height dy cs1).1
           ++ none :: (mouse_children_loop container_height dy cs2).1,
         (mouse_children_loop container_height dy (cs1 ++ cs2)).2))
  ∧ (wheel_children_loop dt speed y container_height (cs1 ++ none :: cs2)
      = ((wheel_children_loop dt speed y container_height cs1).1
           ++ none :: (wheel_children_loop dt speed y container_height cs2).1,
         (wheel_children_loop dt speed y container_height (cs1 ++ cs2)).2)) := by
  constructor
  · rw [mouse_children_loop_append, mouse_children_loop_append]
    simp [mouse_children_loop]
  · rw [wheel_children_loop_append, wheel_children_loop_append]
    simp [wheel_children_loop]

theorem mouse_child_apply_eq_touch : @mouse_child_apply = @touch_child_apply := rfl

theorem mouse_children_loop_eq_touch (container_height dy : ℚ)
    (cs : List (Option ContentItem)) :
    mouse_children_loop container_height dy cs = touch_children_loop container_height dy cs := by
  induction cs with
  | nil => rfl
  | cons c cs ih =>
      cases c <;>
        simp [mouse_children_loop, touch_children_loop, ih, mouse_child_apply_eq_touch]

theorem mouse_pass_rev_eq_touch (dy : ℚ) (l : List Region) (c : Bool) :
    mouse_pass_rev dy l c = touch_pass_rev dy l c := by
  induction l generalizing c with
  | nil => rfl
  | cons r rs ih =>
      simp [mouse_pass_rev, touch_pass_rev, mouse_region_step, touch_region_step,
            mouse_children_loop_eq_touch, ih]

/-- C10: the pointer-drag handler and the touch-drag handler apply the same
algorithm: on the same regions (same pressed set, offsets and sizes) and equal
raw deltas, they produce identical offsets and the same consumption decision. -/
theorem C10_mouse_touch_equivalence (dy : ℚ) (regions l : List Region) (c : Bool) :
    mouse_pass_rev dy l c = touch_pass_rev dy l c
  ∧ input_mouse_pressed_move dy regions = input_touch_pressed_move dy regions := by
  refine ⟨mouse_pass_rev_eq_touch dy l c, ?_⟩
  unfold input_mouse_pressed_move input_touch_pressed_move
  rw [mouse_pass_rev_eq_touch]

/-- C2 counterexample: for a horizontal region the spec's Offset Engine
applies the wheel amount to the x offset, while the code applies it to
`pos_y` (and has no x offset to mutate): at `amount = -5`, offsets `(0, 0)`,
content `200` and viewport `100` on both axes, the results differ. -/
theorem C2_counterexample :
    spec_offset_apply true (-5) 100 100 200 200 ⟨0, 0⟩
      ≠ code_wheel_offset_apply 1 1 (-5) 100 200 ⟨0, 0⟩ := by decide

/-- C2 (amended): the code's `ScrollView` has no `horizontal` field and its
`ScrollableContent` has no `offsetX` field; the derived wheel amount is always
assigned to `deltaY`: the code's wheel delta application coincides with the
spec's Offset Engine fixed at `horizontal = false` and never mutates a
horizontal offset. -/
theorem C2_vertical_axis_only (dt speed y viewport_x viewport_y size_x size_y : ℚ)
    (off : SpecScrollOffset) :
    code_wheel_offset_apply dt speed y viewport_y size_y off
      = spec_offset_apply false (y * dt * speed) viewport_x viewport_y size_x size_y off
  ∧ (code_wheel_offset_apply dt speed y viewport_y size_y off).pos_x = off.pos_x := by
  refine ⟨?_, rfl⟩
  unfold code_wheel_offset_apply spec_offset_apply wheel_child_apply
  simp
  rw [rustMax_zero_comm]

theorem wheel_pass_rev_consumed (dt : ℚ) (ev : MouseWheel) (l : List Region) :
    wheel_pass_rev dt ev l true = (l, true) := by
  induction l with
  | nil => rfl
  | cons r rs ih =>
      by_cases h : r.interaction = Interaction.Hovered <;> simp [wheel_pass_rev, h, ih]

/-- C4 (amended): for two nested regions both hovered, where the inner one is
non-propagating, has overflow and fully absorbs the wheel delta (no boundary
hit), one wheel event changes only the inner region's content offset and the
outer region is completely unchanged; and once an event is consumed, every
remaining candidate is skipped with no delta application at all. -/
theorem C4_innermost_only (dt : ℚ) (ev : MouseWheel) (outerR innerR : Region)
    (item : ContentItem)
    (h_outer : outerR.interaction = Interaction.Hovered)
    (h_inner : innerR.interaction = Interaction.Hovered)
    (h_prop : innerR.view.propagate = false)
    (h_children : innerR.children = [some item])
    (h_over : 0 < rustMax (item.size_y - innerR.node_size_y) 0)
    (h_lo : -(rustMax (item.size_y - innerR.node_size_y) 0)
        ≤ item.content.pos_y
            + wheel_region_y dt innerR.view ev * dt * innerR.view.scroll_speed)
    (h_hi : item.content.pos_y
        + wheel_region_y dt innerR.view ev * dt * innerR.view.scroll_speed ≤ 0) :
    scroll_events dt ev [outerR, innerR]
      = [outerR,
         { innerR with children :=
             [some ⟨⟨item.content.pos_y
                       + wheel_region_y dt innerR.view ev * dt * innerR.view.scroll_speed⟩,
                    item.size_y⟩] }]
  ∧ ∀ others : List Region, wheel_pass_rev dt ev others true = (others, true) := by
  have h_hl : hit_lower item.content.pos_y (rustMax (item.size_y - innerR.node_size_y) 0)
      (wheel_region_y dt innerR.view ev * dt * innerR.view.scroll_speed) = false := by
    unfold hit_lower
    exact decide_eq_false (not_lt.mpr h_lo)
  have h_hu : hit_upper item.content.pos_y (rustMax (item.size_y - innerR.node_size_y) 0)
      (wheel_region_y dt innerR.view ev * dt * innerR.view.scroll_speed) = false := by
    unfold hit_upper
    exact decide_eq_false (not_lt.mpr h_hi)
  have h_clamp : rustClamp
      (item.content.pos_y + wheel_region_y dt innerR.view ev * dt * innerR.view.scroll_speed)
      (-(rustMax (item.size_y - innerR.node_size_y) 0)) 0
      = item.content.pos_y + wheel_region_y dt innerR.view ev * dt * innerR.view.scroll_speed :=
    rustClamp_eq_self _ _ _ h_lo h_hi
  have h_step : wheel_region_step dt ev innerR
      = ({ innerR with children :=
             [some ⟨⟨item.content.pos_y
                       + wheel_region_y dt innerR.view ev * dt * innerR.view.scroll_speed⟩,
                    item.size_y⟩] }, true) := by
    simp only [wheel_region_step, h_children, wheel_children_loop, wheel_child_apply,
      h_hl, h_hu, h_clamp, h_prop, decide_eq_true h_over, Bool.or_false, Bool.not_false,
      Bool.and_true, Bool.false_or, Bool.not_true, Bool.and_false, Bool.true_and]
  refine ⟨?_, wheel_pass_rev_consumed dt ev⟩
  simp [scroll_events, wheel_pass_rev, h_inner, h_outer, h_step, wheel_pass_rev_consumed]

/-- C4 counterexample: two nested hovered regions, the inner non-propagating
and with overflow (`max_scroll = 100 > 0`), but the wheel delta `-150`
overshoots the inner boundary: the inner region does not consume the event and
the outer region's content offset changes from `0` to `-100` as well,
contradicting the claim that only the inner offset changes. -/
theorem C4_counterexample :
    scroll_events 1 ⟨MouseScrollUnit.Pixel, -150⟩
        [⟨[some ⟨⟨0⟩, 200⟩], Interaction.Hovered, ⟨1, false⟩, 100⟩,
         ⟨[some ⟨⟨0⟩, 200⟩], Interaction.Hovered, ⟨1, false⟩, 100⟩]
      = [⟨[some ⟨⟨-100⟩, 200⟩], Interaction.Hovered, ⟨1, false⟩, 100⟩,
         ⟨[some ⟨⟨-100⟩, 200⟩], Interaction.Hovered, ⟨1, false⟩, 100⟩]
  ∧ (0 : ℚ) < rustMax ((200 : ℚ) - 100) 0 := by decide

theorem C4_witness :
    scroll_events 1 ⟨MouseScrollUnit.Pixel, -5⟩
        [⟨[some ⟨⟨0⟩, 200⟩], Interaction.Hovered, ⟨1, false⟩, 100⟩,
         ⟨[some ⟨⟨0⟩, 200⟩], Interaction.Hovered, ⟨1, false⟩, 100⟩]
      = [⟨[some ⟨⟨0⟩, 200⟩], Interaction.Hovered, ⟨1, false⟩, 100⟩,
         ⟨[some ⟨⟨-5⟩, 200⟩], Interaction.Hovered, ⟨1, false⟩, 100⟩] := by
  rw [(C4_innermost_only 1 ⟨MouseScrollUnit.Pixel, -5⟩
    ⟨[some ⟨⟨0⟩, 200⟩], Interaction.Hovered, ⟨1, false⟩, 100⟩
    ⟨[some ⟨⟨0⟩, 200⟩], Interaction.Hovered, ⟨1, false⟩, 100⟩
    ⟨⟨0⟩, 200⟩ rfl rfl rfl rfl (by decide) (by decide) (by decide)).1]
  decide

theorem C6_witness :
    (wheel_region_step 1 ⟨MouseScrollUnit.Line, -5⟩
        ⟨[some ⟨⟨0⟩, 50⟩], Interaction.Hovered, ⟨200, true⟩, 100⟩).2 = false
  ∧ (mouse_region_step (-5)
        ⟨[some ⟨⟨0⟩, 50⟩], Interaction.Hovered, ⟨200, true⟩, 100⟩).2 = false := by
  have h := C6_no_overflow_never_consumes 1 (-5) ⟨MouseScrollUnit.Line, -5⟩
    ⟨[some ⟨⟨0⟩, 50⟩], Interaction.Hovered, ⟨200, true⟩, 100⟩ []
    (by intro item hmem; simp at hmem; subst hmem; decide)
  exact ⟨h.1, h.2.1⟩

theorem C7_witness :
    ((wheel_child_apply 2 3 0 100 ⟨⟨-50⟩, 200⟩).1.content.pos_y = -50
      ∧ (mouse_child_apply 100 ⟨⟨-50⟩, 200⟩ 0).1.content.pos_y = -50)
  ∧ (hit_upper (-50) (rustMax ((200 : ℚ) - 100) 0) 0 = false
      ∧ hit_lower (-50) (rustMax ((200 : ℚ) - 100) 0) 0 = false) := by
  have h := C7_zero_delta_noop 100 2 3 ⟨⟨-50⟩, 200⟩ (by decide) (by decide)
  exact ⟨h.1, h.2 (by decide) (by decide) (by decide)⟩

theorem C8_witness :
    (mouse_child_apply 100 ⟨⟨0⟩, 200⟩ (-5)).1.content.pos_y = 0 + -5
  ∧ (touch_child_apply 100 ⟨⟨0⟩, 200⟩ (-5)).1.content.pos_y = 0 + -5 :=
  C8_drag_delta_unscaled 100 (-5) ⟨⟨0⟩, 200⟩ (by decide) (by decide)

end Scroll
